import Mathlib

/- Verification of the nsiEventBoard repository against its specification.

   Shallow embedding of:
   - the Flask pagination API (src/api.py): paginate_data, create_response,
     error_response and the four data routes;
   - the pure tail of the scraping monitors (src/announcements_monitor.py,
     src/crd_monitor.py): cell extraction, row structuring, result envelopes,
     and the run_single_scrape snapshot-update discipline;
   - the deduplication loops of src/heatmap_api.py and src/heatmap_scraper.py.

   Python dicts are modelled as ordered association lists with
   insert-or-replace semantics (Python 3.7+ insertion order); machine
   integers are Nat (the quantities involved are non-negative counts);
   Python exceptions are modelled with Except. -/

namespace NSEBoard

/-- JSON values as produced and served by the Python code.  Objects keep
their fields in insertion order, like Python dicts. -/
inductive Json where
  | null : Json
  | bool : Bool → Json
  | num : Nat → Json
  | str : String → Json
  | arr : List Json → Json
  | obj : List (String × Json) → Json

/-- Python dict.get with a default: first binding of the key, else the
default.  The dict builders below never create duplicate keys. -/
def jget (m : List (String × Json)) (k : String) (default : Json) : Json :=
  (m.lookup k).getD default

/-- Python str.lower, for the ASCII strings the code handles. -/
def lowerString (s : String) : String := ⟨s.data.map Char.toLower⟩

/-- Python substring test: pat in s. -/
def containsPat (s pat : String) : Bool := decide (pat.data <:+: s.data)

/-! api.py -/

/-- Embedding of api.py paginate_data.  Python raises ZeroDivisionError at
the total_pages division when per_page = 0 and the data list is non-empty
(the empty-data early return happens first); this is modelled by Except.
Python slice data[start : start + per_page] with the non-negative start
(page - 1) * per_page is drop-then-take; page here ranges over the
positive page numbers the claims quantify over. -/
def paginate_data (data : List Json) (page : Nat) (per_page : Nat) :
    Except String (List Json × Nat × Nat) :=
  if data.isEmpty then .ok ([], 0, 0)
  else if per_page = 0 then .error "ZeroDivisionError"
  else
    let total := data.length
    let total_pages := (total + per_page - 1) / per_page
    let start := (page - 1) * per_page
    .ok ((data.drop start).take per_page, total, total_pages)

/-- Embedding of api.py create_response: the standardized success body. -/
def create_response (data : List Json) (metadata : List (String × Json))
    (page per_page total total_pages : Nat) : Json :=
  .obj [
    ("success", .bool true),
    ("metadata", .obj [
      ("scrape_timestamp", jget metadata "scrape_timestamp" .null),
      ("total_records", jget metadata "total_records" .null),
      ("total_pages_scraped", jget metadata "total_pages" .null),
      ("source_url", jget metadata "source_url" .null),
      ("market_type", jget metadata "market_type" (.str "N/A"))]),
    ("pagination", .obj [
      ("page", .num page),
      ("per_page", .num per_page),
      ("total_records", .num total),
      ("total_pages", .num total_pages),
      ("has_next", .bool (decide (page < total_pages))),
      ("has_prev", .bool (decide (1 < page)))]),
    ("data", .arr data)]

/-- Embedding of api.py error_response's JSON body (the routes always use
the default status 404, carried separately in HttpResult). -/
def error_body (message : String) : Json :=
  .obj [("success", .bool false), ("error", .str message)]

/-- Body produced by the Flask 500 errorhandler in api.py when a route
raises (here: ZeroDivisionError from paginate_data). -/
def internal_error_body : Json :=
  error_body "Internal server error"

/-- An HTTP response: status code plus JSON body. -/
structure HttpResult where
  status : Nat
  body : Json

/-- A well-formed snapshot file content, the shape the monitors write and
the spec names as the file contract: a metadata object and a data list. -/
structure Snapshot where
  metadata : List (String × Json)
  data : List Json

/-- The common body shared verbatim by the four data routes of api.py once
the file content is in hand: a missing (or falsy / unreadable, which
load_json_file also maps to None) snapshot gives the 404 error body;
otherwise paginate_data runs, an uncaught ZeroDivisionError becomes the
Flask 500 response, and a success becomes create_response. -/
def serve_snapshot (json_data : Option Snapshot) (notFoundMsg : String)
    (page per_page : Nat) : HttpResult :=
  match json_data with
  | none => { status := 404, body := error_body notFoundMsg }
  | some s =>
    match paginate_data s.data page per_page with
    | .error _ => { status := 500, body := internal_error_body }
    | .ok (paginated, total, total_pages) =>
      { status := 200,
        body := create_response paginated s.metadata page per_page total total_pages }

/-- File path read by the /event-calendar route. -/
def event_calendar_path : String := "event_calendar_data/latest.json"

/-- File path read by the /announcements route for a (lowercased) market. -/
def announcements_path (market : String) : String :=
  "announcements_data/latest_" ++ market ++ ".json"

/-- File path read by the /crd route. -/
def crd_path : String := "crd_data/latest.json"

/-- File path read by the /credit-rating route for a (lowercased) market. -/
def credit_rating_path (market : String) : String :=
  "credit_rating_data/latest_" ++ market ++ ".json"

/-- Embedding of the /event-calendar route.  fs is the filesystem as seen
by load_json_file (none: file absent or unreadable); page and per_page_req
are the parsed query parameters, and the route clamps per_page to 1000. -/
def get_event_calendar (fs : String → Option Snapshot)
    (page per_page_req : Nat) : HttpResult :=
  serve_snapshot (fs event_calendar_path)
    "Event calendar data not found. Please ensure the monitor is running."
    page (min per_page_req 1000)

/-- Embedding of the /announcements route.  market_req is the raw market
query parameter (none when absent, defaulting to equity), lowercased as in
the code. -/
def get_announcements (fs : String → Option Snapshot)
    (market_req : Option String) (page per_page_req : Nat) : HttpResult :=
  let market := lowerString (market_req.getD "equity")
  serve_snapshot (fs (announcements_path market))
    ("Announcements data not found for market: " ++ market ++
      ". Available markets: equity, sme, debt, mf. Please ensure the monitor is running for this market type.")
    page (min per_page_req 1000)

/-- Embedding of the /crd route. -/
def get_crd (fs : String → Option Snapshot)
    (page per_page_req : Nat) : HttpResult :=
  serve_snapshot (fs crd_path)
    "CRD data not found. Please ensure the monitor is running."
    page (min per_page_req 1000)

/-- Embedding of the /credit-rating route. -/
def get_credit_rating (fs : String → Option Snapshot)
    (market_req : Option String) (page per_page_req : Nat) : HttpResult :=
  let market := lowerString (market_req.getD "equity")
  serve_snapshot (fs (credit_rating_path market))
    ("Credit rating data not found for market: " ++ market ++
      ". Available markets: equity, sme. Please ensure the monitor is running for this market type.")
    page (min per_page_req 1000)

/-! announcements_monitor.py and crd_monitor.py -/

/-- A table cell as the extractors see it: its stripped text and, when the
cell holds at least one anchor element, the href attribute of the first one
(none models a cell with no anchor; some "" models a falsy href, covering
both an empty string and a null attribute). -/
structure RawCell where
  text : String
  href : Option String

/-- Announcements cell value: a plain string, or the structured
text/link/type object built for hyperlinked cells. -/
inductive Cell where
  | plain (s : String) : Cell
  | linked (text link ty : String) : Cell
deriving DecidableEq

/-- JSON encoding of a cell value: the object form has exactly the keys
text, link and type, in that order. -/
def Cell.toJson : Cell → Json
  | .plain s => .str s
  | .linked text link ty =>
      .obj [("text", .str text), ("link", .str link), ("type", .str ty)]

/-- Link classification in AnnouncementsMonitor._extract_table_data: pdf
when the lowercased href contains .pdf, else xbrl when it contains xbrl,
else a generic link. -/
def classify_link (href : String) : String :=
  if containsPat (lowerString href) ".pdf" then "pdf"
  else if containsPat (lowerString href) "xbrl" then "xbrl"
  else "link"

/-- Embedding of the per-cell logic of
AnnouncementsMonitor._extract_table_data: keep the stripped text unless the
cell's first anchor has a truthy href, in which case build the structured
object. -/
def extract_cell (c : RawCell) : Cell :=
  match c.href with
  | none => .plain c.text
  | some href =>
      if href = "" then .plain c.text
      else .linked c.text href (classify_link href)

/-- Python dict assignment d[k] = v: replace the value of the first binding
of k in place, else append a new binding. -/
def dict_insert (d : List (String × α)) (k : String) (v : α) :
    List (String × α) :=
  match d with
  | [] => [(k, v)]
  | (k0, v0) :: rest =>
      if k0 = k then (k, v) :: rest else (k0, v0) :: dict_insert rest k v

/-- Embedding of the row-structuring loop shared by
AnnouncementsMonitor.scrape_all_pages and CRDMonitor.scrape_all_pages: when
the row has at least as many cells as headers, one dict assignment
row_dict[header] = row[i] per header index (with the empty filler for the
unreachable i >= len(row) guard); otherwise one assignment per cell, under
the header of the same index (the generic Column_ name for
i >= len(headers) is unreachable in that branch but kept faithful). -/
def structure_row (filler : α) (headers : List String) (row : List α) :
    List (String × α) :=
  if headers.length ≤ row.length then
    headers.enum.foldl (fun d p => dict_insert d p.2 (row.getD p.1 filler)) []
  else
    row.enum.foldl
      (fun d p =>
        dict_insert d
          (if p.1 < headers.length then headers.getD p.1 ""
           else "Column_" ++ toString (p.1 + 1)) p.2) []

/-- Default headers used by the announcements monitor when extraction finds
none. -/
def announcements_default_headers : List String :=
  ["SYMBOL", "COMPANY NAME", "SUBJECT", "DETAILS", "ATTACHMENT", "XBRL",
   "BROADCAST DATE/TIME"]

/-- Default headers used by the CRD monitor when extraction finds none. -/
def crd_default_headers : List String :=
  ["COMPANY NAME", "ISIN", "NAME OF CREDIT RATING AGENCY", "CREDIT RATING",
   "RATING ACTION", "DATE OF CREDIT RATING", "REPORTING DATE",
   "BROADCAST DATE/TIME"]

/-- Headers actually used: the extracted ones unless that list is empty. -/
def effective_headers (extracted default : List String) : List String :=
  if extracted.isEmpty then default else extracted

/-- JSON encoding of a structured record (ordered dict of cells). -/
def record_to_json (enc : α → Json) (r : List (String × α)) : Json :=
  .obj (r.map (fun p => (p.1, enc p.2)))

/-- Embedding of the result envelope built at the end of
AnnouncementsMonitor.scrape_all_pages from the extracted headers, the rows
collected over all pages, the count page of pages visited, the timestamp,
market type and source URL. -/
def announcements_scrape_result (extracted_headers : List String)
    (all_data : List (List Cell)) (page : Nat) (ts market url : String) :
    Snapshot :=
  let headers := effective_headers extracted_headers announcements_default_headers
  let structured := all_data.map (structure_row (Cell.plain "") headers)
  { metadata := [
      ("scrape_timestamp", .str ts),
      ("total_records", .num structured.length),
      ("total_pages", .num page),
      ("market_type", .str market),
      ("source_url", .str url),
      ("headers", .arr (headers.map .str))],
    data := structured.map (record_to_json Cell.toJson) }

/-- CRD cell value: a plain string, or the text/link object built for
hyperlinked cells by CRDMonitor._extract_table_data. -/
inductive CrdCell where
  | plain (s : String) : CrdCell
  | linked (text link : String) : CrdCell
deriving DecidableEq

/-- JSON encoding of a CRD cell value. -/
def CrdCell.toJson : CrdCell → Json
  | .plain s => .str s
  | .linked text link => .obj [("text", .str text), ("link", .str link)]

/-- Embedding of the result envelope built at the end of
CRDMonitor.scrape_all_pages. -/
def crd_scrape_result (extracted_headers : List String)
    (all_data : List (List CrdCell)) (page : Nat) (ts url : String) :
    Snapshot :=
  let headers := effective_headers extracted_headers crd_default_headers
  let structured := all_data.map (structure_row (CrdCell.plain "") headers)
  { metadata := [
      ("scrape_timestamp", .str ts),
      ("total_records", .num structured.length),
      ("total_pages", .num page),
      ("source_url", .str url),
      ("headers", .arr (headers.map .str))],
    data := structured.map (record_to_json CrdCell.toJson) }

/-- Outcome of one scrape_all_pages call, as seen by run_single_scrape: a
truthy result envelope, a None return (driver init failure, missing table,
or an error caught inside scrape_all_pages), or an exception escaping into
run_single_scrape's own handler. -/
inductive ScrapeOutcome where
  | success (d : Snapshot) : ScrapeOutcome
  | failure : ScrapeOutcome
  | raised : ScrapeOutcome

/-- Monitor state relevant to the snapshot discipline: the content of the
latest JSON snapshot file the API serves (none when not yet written) and
the last_data attribute. -/
structure MonitorState where
  snapshot : Option Snapshot
  last_data : Option Snapshot

/-- Embedding of run_single_scrape, structurally identical in
AnnouncementsMonitor (file latest_<market>.json) and CRDMonitor (file
latest.json): on a truthy result the latest snapshot file is overwritten
via save_latest, last_data is updated and the data returned; on a None
result nothing is written and None is returned; an exception is caught,
the browser session is reinitialized (which does not touch the snapshot
file) and None is returned. -/
def run_single_scrape (st : MonitorState) (o : ScrapeOutcome) :
    MonitorState × Option Snapshot :=
  match o with
  | .success d => ({ snapshot := some d, last_data := some d }, some d)
  | .failure => (st, none)
  | .raised => (st, none)

/-! heatmap_api.py and heatmap_scraper.py -/

/-- One stock tile as collected by HeatmapService.get_heatmap or
HeatmapScraper.scrape_heatmap before deduplication. -/
structure Stock where
  symbol : String
  price : String
  change : String
  color : String
deriving DecidableEq

/-- One index card as collected by HeatmapService.get_indices before
deduplication. -/
structure IndexCard where
  name : String
  value : String
  change : String
deriving DecidableEq

/-- The seen-set deduplication loop shared by the three deduplication sites
(HeatmapService.get_heatmap, HeatmapService.get_indices,
HeatmapScraper.scrape_heatmap): walk the list, keep an entry iff its key is
not in the seen set, and add the keys of kept entries to the set. -/
def dedup_seen (key : α → String) (seen : List String) : List α → List α
  | [] => []
  | x :: rest =>
      if key x ∈ seen then dedup_seen key seen rest
      else x :: dedup_seen key (key x :: seen) rest

/-- Deduplication as invoked in the code: empty initial seen set. -/
def dedup_by (key : α → String) (xs : List α) : List α := dedup_seen key [] xs

/-- Result object of HeatmapService.get_heatmap after tile collection: the
final duplicate removal by symbol, with total_stocks the deduplicated
length. -/
structure HeatmapResult where
  index_name : String
  category : String
  total_stocks : Nat
  scrape_timestamp : String
  stocks : List Stock

/-- Embedding of the tail of HeatmapService.get_heatmap: deduplicate the
collected stocks by symbol and build the result object. -/
def get_heatmap_result (index_name category ts : String)
    (collected : List Stock) : HeatmapResult :=
  let unique_stocks := dedup_by (fun s => s.symbol) collected
  { index_name := index_name, category := category,
    total_stocks := unique_stocks.length, scrape_timestamp := ts,
    stocks := unique_stocks }

/-- Embedding of the tail of HeatmapService.get_indices: deduplicate the
collected index cards by name. -/
def get_indices_result (collected : List IndexCard) : List IndexCard :=
  dedup_by (fun c => c.name) collected

/-- Embedding of the tail of HeatmapScraper.scrape_heatmap: deduplicate the
collected stocks by symbol. -/
def scrape_heatmap_dedup (collected : List Stock) : List Stock :=
  dedup_by (fun s => s.symbol) collected

/-- Restatement of the deduplication rule in the words of the claim (for
the refinement proof): walking the list with the full multiset of keys
already walked past, keep each entry whose key has not appeared among the
earlier entries. -/
def first_occurrence_keep (key : α → String) (earlier : List String) :
    List α → List α
  | [] => []
  | x :: rest =>
      if key x ∈ earlier then first_occurrence_keep key (key x :: earlier) rest
      else x :: first_occurrence_keep key (key x :: earlier) rest

/-- Field access on a JSON object value. -/
def Json.getKey : Json → String → Option Json
  | .obj fields, k => fields.lookup k
  | _, _ => none

/-- The slice paginate_data serves for one page (empty in the error case,
which is unreachable for positive per_page). -/
def page_slice (D : List Json) (k p : Nat) : List Json :=
  match paginate_data D p k with
  | .ok (slice, _, _) => slice
  | .error _ => []

/-- The total page count paginate_data reports. -/
def pages_count (D : List Json) (k : Nat) : Nat :=
  match paginate_data D 1 k with
  | .ok (_, _, tp) => tp
  | .error _ => 0

/-- tp is the ceiling of len / k: the least m with len ≤ k * m.  For
positive k this is the mathematical ⌈len / k⌉ that the claims describe and
that the code computes as (len + k - 1) / k. -/
def is_ceil_div (len k tp : Nat) : Prop :=
  len ≤ k * tp ∧ ∀ m, len ≤ k * m → tp ≤ m

/-- The paged-response contract of claim C1 for one route result r serving
a snapshot data list D at page p with (clamped) per-page k: status 200, a
body with exactly the keys success, metadata, pagination, data; success
true; data the Python slice D[(p-1)*k : p*k]; total_records the length of
D; total_pages the ceiling of length D / k; has_next true iff p <
total_pages; has_prev true iff 1 < p. -/
def route_claim (r : HttpResult) (D : List Json) (p k : Nat) : Prop :=
  r.status = 200 ∧
  (∃ fields, r.body = .obj fields ∧
    fields.map Prod.fst = ["success", "metadata", "pagination", "data"]) ∧
  r.body.getKey "success" = some (.bool true) ∧
  r.body.getKey "data" = some (.arr ((D.take (p * k)).drop ((p - 1) * k))) ∧
  ∃ tp, is_ceil_div D.length k tp ∧
    ((r.body.getKey "pagination").bind (fun j => j.getKey "total_records") =
      some (.num D.length)) ∧
    ((r.body.getKey "pagination").bind (fun j => j.getKey "total_pages") =
      some (.num tp)) ∧
    ((r.body.getKey "pagination").bind (fun j => j.getKey "has_next") =
      some (.bool (decide (p < tp)))) ∧
    ((r.body.getKey "pagination").bind (fun j => j.getKey "has_prev") =
      some (.bool (decide (1 < p))))

/-- The out-of-range-page contract of claim C10 for one route result r
serving a snapshot data list D: a success response with an empty data
list, total_records still the length of D, and has_next false. -/
def oor_claim (r : HttpResult) (D : List Json) : Prop :=
  r.status = 200 ∧
  r.body.getKey "success" = some (.bool true) ∧
  r.body.getKey "data" = some (.arr []) ∧
  ((r.body.getKey "pagination").bind (fun j => j.getKey "total_records") =
    some (.num D.length)) ∧
  ((r.body.getKey "pagination").bind (fun j => j.getKey "has_next") =
    some (.bool false))

/-! Theorems -/

/-- Arithmetic helper: the total_pages expression for a non-empty list,
with the truncated subtraction unfolded. -/
theorem ceil_div_succ (len k : Nat) (hk : 1 ≤ k) (hl : 1 ≤ len) :
    (len + k - 1) / k = (len - 1) / k + 1 := by
  have h : len + k - 1 = (len - 1) + k := by omega
  rw [h, Nat.add_div_right _ (by omega)]

/-- The code's total_pages value (len + k - 1) / k is the ceiling of
len / k for positive k. -/
theorem total_pages_is_ceil (len k : Nat) (hk : 1 ≤ k) :
    is_ceil_div len k ((len + k - 1) / k) := by
  rcases Nat.eq_zero_or_pos len with h0 | hpos
  · subst h0
    rw [show (0 + k - 1) / k = 0 from Nat.div_eq_of_lt (by omega)]
    exact ⟨by omega, fun m _ => Nat.zero_le m⟩
  · rw [ceil_div_succ len k hk hpos]
    constructor
    · have hdm := Nat.div_add_mod (len - 1) k
      have hm := Nat.mod_lt (len - 1) (show 0 < k by omega)
      have hms : k * ((len - 1) / k + 1) = k * ((len - 1) / k) + k := by
        rw [Nat.mul_add, Nat.mul_one]
      omega
    · intro m hm
      have h1 : len - 1 < m * k := by
        have := Nat.mul_comm k m
        omega
      have h2 : (len - 1) / k < m :=
        (Nat.div_lt_iff_lt_mul (show 0 < k by omega)).mpr h1
      omega

/-- paginate_data never raises for positive per_page, and computes the
drop/take slice together with the record and page totals. -/
theorem paginate_data_pos (D : List Json) (p k : Nat) (hk : 1 ≤ k) :
    paginate_data D p k =
      .ok ((D.drop ((p - 1) * k)).take k, D.length,
        (D.length + k - 1) / k) := by
  unfold paginate_data
  rcases D with _ | ⟨x, rest⟩
  · simp [Nat.div_eq_of_lt (show k - 1 < k by omega)]
  · simp [show ¬ (k = 0) by omega]

/-- A present snapshot with positive per_page is served as the 200
create_response of its paginate_data output. -/
theorem serve_snapshot_success (s : Snapshot) (msg : String) (p k : Nat)
    (hk : 1 ≤ k) :
    serve_snapshot (some s) msg p k =
      ⟨200, create_response ((s.data.drop ((p - 1) * k)).take k) s.metadata
        p k s.data.length ((s.data.length + k - 1) / k)⟩ := by
  simp [serve_snapshot, paginate_data_pos s.data p k hk]

/-- The Python slice D[(p-1)*k : p*k] is the drop/take slice served by
paginate_data, for p ≥ 1. -/
theorem slice_take_drop (D : List Json) (p k : Nat) (hp : 1 ≤ p) :
    (D.take (p * k)).drop ((p - 1) * k) = (D.drop ((p - 1) * k)).take k := by
  have hmul : (p - 1) * k = p * k - k := by
    rw [Nat.sub_mul, Nat.one_mul]
  have hle : k ≤ p * k := by
    calc k = 1 * k := (Nat.one_mul k).symm
    _ ≤ p * k := Nat.mul_le_mul_right k hp
  rw [List.drop_take, show p * k - (p - 1) * k = k by omega]

/-- Core of C1 for one route: serving a present snapshot at a valid page
and positive per_page meets the paged-response contract. -/
theorem serve_snapshot_route_claim (s : Snapshot) (msg : String)
    (p k : Nat) (hp : 1 ≤ p) (hk : 1 ≤ k) :
    route_claim (serve_snapshot (some s) msg p k) s.data p k := by
  rw [serve_snapshot_success s msg p k hk]
  refine ⟨rfl, ⟨_, rfl, rfl⟩, ?_, ?_, (s.data.length + k - 1) / k,
    total_pages_is_ceil s.data.length k hk, ?_, ?_, ?_, ?_⟩ <;>
    simp [create_response, Json.getKey, List.lookup, slice_take_drop s.data p k hp]

/-- C4: a failed scrape cycle leaves the latest snapshot unchanged.  When
scrape_all_pages returns None, or raises into run_single_scrape's handler,
run_single_scrape leaves the monitor state (in particular the latest
snapshot file) untouched and returns None; in general, the snapshot file
content differs from the previous state only when the outcome is a
successful scrape. -/
theorem run_single_scrape_failure_keeps_snapshot (st : MonitorState)
    (o : ScrapeOutcome) :
    run_single_scrape st .failure = (st, none) ∧
    run_single_scrape st .raised = (st, none) ∧
    ((∃ d, o = .success d) ∨
      ((run_single_scrape st o).1.snapshot = st.snapshot ∧
        (run_single_scrape st o).2 = none)) := by
  refine ⟨rfl, rfl, ?_⟩
  cases o with
  | success d => exact .inl ⟨d, rfl⟩
  | failure => exact .inr ⟨rfl, rfl⟩
  | raised => exact .inr ⟨rfl, rfl⟩

/-- C5: every result envelope of a successful scrape lists the metadata
keys scrape_timestamp, total_records, total_pages, source_url and headers
(the announcements monitor additionally market_type), and its
metadata.total_records is exactly the length of its data list, for both
monitors. -/
theorem scrape_result_record_count (eh : List String)
    (rows : List (List Cell)) (crows : List (List CrdCell)) (page : Nat)
    (ts market url : String) :
    ((announcements_scrape_result eh rows page ts market url).metadata.map
        Prod.fst =
      ["scrape_timestamp", "total_records", "total_pages", "market_type",
       "source_url", "headers"]) ∧
    ((announcements_scrape_result eh rows page ts market url).metadata.lookup
        "total_records" =
      some (.num
        (announcements_scrape_result eh rows page ts market url).data.length)) ∧
    ((crd_scrape_result eh crows page ts url).metadata.map Prod.fst =
      ["scrape_timestamp", "total_records", "total_pages", "source_url",
       "headers"]) ∧
    ((crd_scrape_result eh crows page ts url).metadata.lookup
        "total_records" =
      some (.num (crd_scrape_result eh crows page ts url).data.length)) := by
  refine ⟨rfl, ?_, rfl, ?_⟩ <;>
    simp [announcements_scrape_result, crd_scrape_result, List.lookup]

/-- C6: each announcements cell value is a plain string or an object with
exactly the keys text, link and type; the object form appears exactly when
the cell's anchor has a non-empty href, and the type field is pdf when the
lowercased href contains .pdf, else xbrl when it contains xbrl, else
link. -/
theorem extract_cell_shape (c : RawCell) :
    ((extract_cell c).toJson = .str c.text ∨
      ∃ fields, (extract_cell c).toJson = .obj fields ∧
        fields.map Prod.fst = ["text", "link", "type"]) ∧
    ((∃ t l ty, extract_cell c = .linked t l ty) ↔
      (∃ h, c.href = some h ∧ h ≠ "")) ∧
    (∀ h, c.href = some h → h ≠ "" →
      extract_cell c = .linked c.text h
        (if containsPat (lowerString h) ".pdf" then "pdf"
         else if containsPat (lowerString h) "xbrl" then "xbrl"
         else "link")) := by
  obtain ⟨t, href⟩ := c
  cases href with
  | none =>
      refine ⟨.inl rfl, ?_, ?_⟩
      · constructor
        · rintro ⟨t', l', ty', h⟩; simp [extract_cell] at h
        · rintro ⟨h, hh, -⟩; simp at hh
      · intro h hh; simp at hh
  | some href =>
      by_cases hemp : href = ""
      · subst hemp
        refine ⟨.inl (by simp [extract_cell, Cell.toJson]), ?_, ?_⟩
        · constructor
          · rintro ⟨t', l', ty', h⟩; simp [extract_cell] at h
          · rintro ⟨h, hh, hne⟩
            simp only [Option.some.injEq] at hh
            exact absurd hh.symm hne
        · intro h hh hne
          simp only [Option.some.injEq] at hh
          exact absurd hh.symm hne
      · refine ⟨.inr ?_, ?_, ?_⟩
        · refine ⟨[("text", .str t), ("link", .str href),
            ("type", .str (classify_link href))], ?_, rfl⟩
          simp [extract_cell, hemp, Cell.toJson]
        · constructor
          · intro _; exact ⟨href, rfl, hemp⟩
          · intro _
            exact ⟨t, href, classify_link href, by simp [extract_cell, hemp]⟩
        · intro h hh hne
          simp only [Option.some.injEq] at hh
          subst hh
          simp [extract_cell, hemp, classify_link]

/-- Witness for the cell-extraction theorem at a concrete hyperlinked cell
carrying an uppercase PDF link. -/
theorem extract_cell_shape_witness :
    extract_cell ⟨"Report", some "https://x/a.PDF"⟩ =
      .linked "Report" "https://x/a.PDF" "pdf" := by
  have h := (extract_cell_shape ⟨"Report", some "https://x/a.PDF"⟩).2.2
    "https://x/a.PDF" rfl (by decide)
  rw [h]
  decide

/-- C2: when the snapshot file a route reads is absent from disk (or
unreadable, which load_json_file also maps to None), the route answers
HTTP 404 with the JSON body success: false / error: message; the
market-parameterised routes consult latest_<market>.json where market is
the lowercased market query parameter, defaulting to equity. -/
theorem missing_snapshot_gives_404 (fs : String → Option Snapshot)
    (market_req : Option String) (page per_page_req : Nat)
    (h1 : fs event_calendar_path = none)
    (h2 : fs (announcements_path (lowerString (market_req.getD "equity"))) =
      none)
    (h3 : fs crd_path = none)
    (h4 : fs (credit_rating_path (lowerString (market_req.getD "equity"))) =
      none) :
    get_event_calendar fs page per_page_req =
      { status := 404, body := error_body
          "Event calendar data not found. Please ensure the monitor is running." } ∧
    get_announcements fs market_req page per_page_req =
      { status := 404, body := error_body
          ("Announcements data not found for market: " ++
            lowerString (market_req.getD "equity") ++
            ". Available markets: equity, sme, debt, mf. Please ensure the monitor is running for this market type.") } ∧
    get_crd fs page per_page_req =
      { status := 404, body := error_body
          "CRD data not found. Please ensure the monitor is running." } ∧
    get_credit_rating fs market_req page per_page_req =
      { status := 404, body := error_body
          ("Credit rating data not found for market: " ++
            lowerString (market_req.getD "equity") ++
            ". Available markets: equity, sme. Please ensure the monitor is running for this market type.") } := by
  refine ⟨?_, ?_, ?_, ?_⟩ <;>
    simp [get_event_calendar, get_announcements, get_crd, get_credit_rating,
      serve_snapshot, h1, h2, h3, h4]

/-- Witness for the missing-snapshot theorem on the empty filesystem with
an uppercase market parameter. -/
theorem missing_snapshot_gives_404_witness :
    get_announcements (fun _ => none) (some "SME") 1 50 =
      { status := 404, body := error_body
          ("Announcements data not found for market: " ++
            lowerString "SME" ++
            ". Available markets: equity, sme, debt, mf. Please ensure the monitor is running for this market type.") } :=
  (missing_snapshot_gives_404 (fun _ => none) (some "SME") 1 50
    rfl rfl rfl rfl).2.1

/-- C1: with the snapshot file present, page p ≥ 1 and per_page clamped by
the route to k with 1 ≤ k ≤ 1000, each of the four data routes answers 200
with a JSON object having exactly the top-level keys success, metadata,
pagination and data; success is true, data is the Python slice
D[(p-1)*k : p*k] of the snapshot's data list D, pagination.total_records
is the length of D, pagination.total_pages is the ceiling of |D| / k,
has_next is true iff p < total_pages and has_prev is true iff p > 1. -/
theorem routes_paginated_response (fs : String → Option Snapshot)
    (market_req : Option String) (s1 s2 s3 s4 : Snapshot)
    (p per_page_req k : Nat)
    (hclamp : min per_page_req 1000 = k) (hp : 1 ≤ p) (hk : 1 ≤ k)
    (h1 : fs event_calendar_path = some s1)
    (h2 : fs (announcements_path (lowerString (market_req.getD "equity"))) =
      some s2)
    (h3 : fs crd_path = some s3)
    (h4 : fs (credit_rating_path (lowerString (market_req.getD "equity"))) =
      some s4) :
    route_claim (get_event_calendar fs p per_page_req) s1.data p k ∧
    route_claim (get_announcements fs market_req p per_page_req) s2.data p k ∧
    route_claim (get_crd fs p per_page_req) s3.data p k ∧
    route_claim (get_credit_rating fs market_req p per_page_req) s4.data p k := by
  subst hclamp
  refine ⟨?_, ?_, ?_, ?_⟩
  · rw [get_event_calendar, h1]
    exact serve_snapshot_route_claim s1 _ p _ hp hk
  · rw [get_announcements]
    rw [h2]
    exact serve_snapshot_route_claim s2 _ p _ hp hk
  · rw [get_crd, h3]
    exact serve_snapshot_route_claim s3 _ p _ hp hk
  · rw [get_credit_rating]
    rw [h4]
    exact serve_snapshot_route_claim s4 _ p _ hp hk

/-- Witness for the paged-response theorem: one record, page 1, per_page
50, all four snapshot files present. -/
theorem routes_paginated_response_witness :
    route_claim
      (get_event_calendar (fun _ => some ⟨[], [Json.null]⟩) 1 50)
      [Json.null] 1 50 :=
  (routes_paginated_response (fun _ => some ⟨[], [Json.null]⟩) none
    ⟨[], [Json.null]⟩ ⟨[], [Json.null]⟩ ⟨[], [Json.null]⟩ ⟨[], [Json.null]⟩
    1 50 50 rfl (by decide) (by decide) rfl rfl rfl rfl).1

/-- Core of C10 for one route: a page beyond the total page count is
served as a success with an empty data slice. -/
theorem serve_snapshot_oor_claim (s : Snapshot) (msg : String) (p k : Nat)
    (hk : 1 ≤ k) (hp : (s.data.length + k - 1) / k < p) :
    oor_claim (serve_snapshot (some s) msg p k) s.data := by
  rw [serve_snapshot_success s msg p k hk]
  have hceil := (total_pages_is_ceil s.data.length k hk).1
  have hmul : ((s.data.length + k - 1) / k) * k ≤ (p - 1) * k :=
    Nat.mul_le_mul_right k (by omega)
  have hlen : s.data.length ≤ (p - 1) * k := by
    have := Nat.mul_comm k ((s.data.length + k - 1) / k)
    omega
  have hdrop : s.data.drop ((p - 1) * k) = [] := List.drop_eq_nil_of_le hlen
  have hnext : decide (p < (s.data.length + k - 1) / k) = false :=
    decide_eq_false_iff_not.mpr (by omega)
  refine ⟨rfl, ?_, ?_, ?_, ?_⟩ <;>
    simp [create_response, Json.getKey, List.lookup, hdrop, hnext]

/-- C10: an out-of-range page is not an error: with the snapshot file
present, per_page k ≥ 1 (after the clamp) and page p beyond the ceiling of
|D| / k, each route answers success true with an empty data list,
total_records still |D| and has_next false. -/
theorem out_of_range_page_success (fs : String → Option Snapshot)
    (market_req : Option String) (s1 s2 s3 s4 : Snapshot)
    (p per_page_req k : Nat)
    (hclamp : min per_page_req 1000 = k) (hk : 1 ≤ k)
    (h1 : fs event_calendar_path = some s1)
    (h2 : fs (announcements_path (lowerString (market_req.getD "equity"))) =
      some s2)
    (h3 : fs crd_path = some s3)
    (h4 : fs (credit_rating_path (lowerString (market_req.getD "equity"))) =
      some s4)
    (hp1 : (s1.data.length + k - 1) / k < p)
    (hp2 : (s2.data.length + k - 1) / k < p)
    (hp3 : (s3.data.length + k - 1) / k < p)
    (hp4 : (s4.data.length + k - 1) / k < p) :
    oor_claim (get_event_calendar fs p per_page_req) s1.data ∧
    oor_claim (get_announcements fs market_req p per_page_req) s2.data ∧
    oor_claim (get_crd fs p per_page_req) s3.data ∧
    oor_claim (get_credit_rating fs market_req p per_page_req) s4.data := by
  subst hclamp
  refine ⟨?_, ?_, ?_, ?_⟩
  · rw [get_event_calendar, h1]
    exact serve_snapshot_oor_claim s1 _ p _ hk hp1
  · rw [get_announcements]
    rw [h2]
    exact serve_snapshot_oor_claim s2 _ p _ hk hp2
  · rw [get_crd, h3]
    exact serve_snapshot_oor_claim s3 _ p _ hk hp3
  · rw [get_credit_rating]
    rw [h4]
    exact serve_snapshot_oor_claim s4 _ p _ hk hp4

/-- Witness for the out-of-range theorem: three records, per_page 2, page
5 (total pages 2). -/
theorem out_of_range_page_success_witness :
    oor_claim
      (get_event_calendar
        (fun _ => some ⟨[], [Json.null, Json.null, Json.null]⟩) 5 2)
      [Json.null, Json.null, Json.null] :=
  (out_of_range_page_success
    (fun _ => some ⟨[], [Json.null, Json.null, Json.null]⟩) none
    ⟨[], [Json.null, Json.null, Json.null]⟩
    ⟨[], [Json.null, Json.null, Json.null]⟩
    ⟨[], [Json.null, Json.null, Json.null]⟩
    ⟨[], [Json.null, Json.null, Json.null]⟩
    5 2 2 rfl (by decide) rfl rfl rfl rfl
    (by decide) (by decide) (by decide) (by decide)).1

/-- C9: per_page has an upper clamp but no lower guard: every route passes
min(per_page_req, 1000) to paginate_data; with per_page 0 and a non-empty
data list, paginate_data raises ZeroDivisionError at the total_pages
division and the route answers the Flask 500 error body instead of a paged
response, while paginate_data totally succeeds for every per_page ≥ 1. -/
theorem per_page_zero_not_guarded (fs : String → Option Snapshot)
    (market_req : Option String) (s1 s2 s3 s4 : Snapshot) (page : Nat)
    (h1 : fs event_calendar_path = some s1) (hd1 : s1.data ≠ [])
    (h2 : fs (announcements_path (lowerString (market_req.getD "equity"))) =
      some s2) (hd2 : s2.data ≠ [])
    (h3 : fs crd_path = some s3) (hd3 : s3.data ≠ [])
    (h4 : fs (credit_rating_path (lowerString (market_req.getD "equity"))) =
      some s4) (hd4 : s4.data ≠ []) :
    (∀ D : List Json, D ≠ [] → ∀ p,
      paginate_data D p 0 = .error "ZeroDivisionError") ∧
    (∀ preq, get_event_calendar fs page preq =
      serve_snapshot (fs event_calendar_path)
        "Event calendar data not found. Please ensure the monitor is running."
        page (min preq 1000)) ∧
    get_event_calendar fs page 0 = ⟨500, internal_error_body⟩ ∧
    get_announcements fs market_req page 0 = ⟨500, internal_error_body⟩ ∧
    get_crd fs page 0 = ⟨500, internal_error_body⟩ ∧
    get_credit_rating fs market_req page 0 = ⟨500, internal_error_body⟩ ∧
    (∀ (D : List Json) (p k : Nat), 1 ≤ k →
      ∃ out, paginate_data D p k = .ok out) := by
  have hz : ∀ D : List Json, D ≠ [] → ∀ p,
      paginate_data D p 0 = .error "ZeroDivisionError" := by
    intro D hD p
    unfold paginate_data
    rcases D with _ | ⟨x, rest⟩
    · exact absurd rfl hD
    · simp
  refine ⟨hz, fun _ => rfl, ?_, ?_, ?_, ?_,
    fun D p k hk => ⟨_, paginate_data_pos D p k hk⟩⟩
  · rw [get_event_calendar, h1]
    simp [serve_snapshot, hz s1.data hd1 page]
  · rw [get_announcements]
    rw [h2]
    simp [serve_snapshot, hz s2.data hd2 page]
  · rw [get_crd, h3]
    simp [serve_snapshot, hz s3.data hd3 page]
  · rw [get_credit_rating]
    rw [h4]
    simp [serve_snapshot, hz s4.data hd4 page]

/-- Witness for the per_page 0 theorem: a one-record snapshot in every
file, requested with per_page 0. -/
theorem per_page_zero_not_guarded_witness :
    get_event_calendar (fun _ => some ⟨[], [Json.null]⟩) 1 0 =
      ⟨500, internal_error_body⟩ :=
  (per_page_zero_not_guarded (fun _ => some ⟨[], [Json.null]⟩) none
    ⟨[], [Json.null]⟩ ⟨[], [Json.null]⟩ ⟨[], [Json.null]⟩ ⟨[], [Json.null]⟩
    1 rfl (List.cons_ne_nil _ _) rfl (List.cons_ne_nil _ _)
    rfl (List.cons_ne_nil _ _) rfl (List.cons_ne_nil _ _)).2.2.1

/-- The served slice in drop/take form, for positive per_page. -/
theorem page_slice_eq (D : List Json) (k p : Nat) (hk : 1 ≤ k) :
    page_slice D k p = (D.drop ((p - 1) * k)).take k := by
  unfold page_slice
  rw [paginate_data_pos D p k hk]

/-- The reported page count in closed form, for positive per_page. -/
theorem pages_count_eq (D : List Json) (k : Nat) (hk : 1 ≤ k) :
    pages_count D k = (D.length + k - 1) / k := by
  unfold pages_count
  rw [paginate_data_pos D 1 k hk]

/-- Concatenating the k-sized chunks of a list, one per page, recovers the
list. -/
theorem chunks_join (k : Nat) (hk : 1 ≤ k) :
    ∀ (n : Nat) (D : List Json), D.length ≤ n →
      ((List.range ((D.length + k - 1) / k)).map
        (fun i => (D.drop (i * k)).take k)).flatten = D := by
  intro n
  induction n with
  | zero =>
      intro D hD
      have hnil : D = [] := List.eq_nil_of_length_eq_zero (by omega)
      subst hnil
      simp [Nat.div_eq_of_lt (show k - 1 < k by omega)]
  | succ n ih =>
      intro D hD
      rcases D with _ | ⟨x, rest⟩
      · simp [Nat.div_eq_of_lt (show k - 1 < k by omega)]
      · have hpos : 1 ≤ (x :: rest).length := Nat.succ_pos rest.length
        rw [ceil_div_succ _ k hk hpos, List.range_succ_eq_map, List.map_cons,
          List.map_map, List.flatten_cons]
        have hm : (((x :: rest).drop k).length + k - 1) / k =
            ((x :: rest).length - 1) / k := by
          rw [List.length_drop]
          rcases le_or_lt (x :: rest).length k with hle | hlt
          · rw [show (x :: rest).length - k = 0 by omega,
              Nat.div_eq_of_lt (show 0 + k - 1 < k by omega),
              Nat.div_eq_of_lt (by omega)]
          · rw [show (x :: rest).length - k + k - 1 =
              (x :: rest).length - 1 by omega]
        have htail : ((List.range (((x :: rest).length - 1) / k)).map
            ((fun i => ((x :: rest).drop (i * k)).take k) ∘ Nat.succ)).flatten =
            (x :: rest).drop k := by
          have hjoin := ih ((x :: rest).drop k)
            (by rw [List.length_drop]; omega)
          rw [hm] at hjoin
          rw [← hjoin]
          congr 1
          apply List.map_congr_left
          intro i _
          show ((x :: rest).drop (Nat.succ i * k)).take k =
            (((x :: rest).drop k).drop (i * k)).take k
          rw [List.drop_drop, Nat.succ_mul, Nat.add_comm (i * k) k]
        rw [htail]
        show ((x :: rest).drop (0 * k)).take k ++ (x :: rest).drop k =
          x :: rest
        rw [Nat.zero_mul, List.drop_zero, List.take_append_drop]

/-- C3: pagination is a partition of the snapshot: for every data list D
and per_page k ≥ 1, the slices paginate_data serves for pages 1 ..
total_pages concatenate, in order, to exactly D; every page but possibly
the last holds exactly k records; and when D is non-empty the last page
holds between 1 and k records. -/
theorem pagination_partitions (D : List Json) (k : Nat) (hk : 1 ≤ k) :
    (((List.range (pages_count D k)).map
        (fun i => page_slice D k (i + 1))).flatten = D) ∧
    (∀ i, i + 1 < pages_count D k → (page_slice D k (i + 1)).length = k) ∧
    (D ≠ [] → 1 ≤ (page_slice D k (pages_count D k)).length ∧
      (page_slice D k (pages_count D k)).length ≤ k) := by
  have hslice : ∀ p, page_slice D k p = (D.drop ((p - 1) * k)).take k :=
    fun p => page_slice_eq D k p hk
  have hcount := pages_count_eq D k hk
  refine ⟨?_, ?_, ?_⟩
  · have hmap : (List.range (pages_count D k)).map
        (fun i => page_slice D k (i + 1)) =
        (List.range ((D.length + k - 1) / k)).map
        (fun i => (D.drop (i * k)).take k) := by
      rw [hcount]
      apply List.map_congr_left
      intro i _
      rw [hslice (i + 1), Nat.add_sub_cancel]
    rw [hmap]
    exact chunks_join k hk D.length D le_rfl
  · intro i hi
    rw [hcount] at hi
    rw [hslice (i + 1), Nat.add_sub_cancel]
    have hlen1 : 1 ≤ D.length := by
      by_contra hc
      rw [show D.length = 0 by omega,
        Nat.div_eq_of_lt (show 0 + k - 1 < k by omega)] at hi
      omega
    rw [ceil_div_succ _ k hk hlen1] at hi
    have hle : (i + 1) * k ≤ ((D.length - 1) / k) * k :=
      Nat.mul_le_mul_right k (by omega)
    have hdl : ((D.length - 1) / k) * k ≤ D.length - 1 :=
      Nat.div_mul_le_self _ k
    have hsm : (i + 1) * k = i * k + k := Nat.succ_mul i k
    rw [List.length_take, List.length_drop]
    omega
  · intro hne
    have hlen1 : 1 ≤ D.length := by
      rcases D with _ | ⟨x, rest⟩
      · exact absurd rfl hne
      · exact Nat.succ_pos rest.length
    rw [hslice, hcount, ceil_div_succ _ k hk hlen1, Nat.add_sub_cancel]
    have hdl : ((D.length - 1) / k) * k ≤ D.length - 1 :=
      Nat.div_mul_le_self _ k
    rw [List.length_take, List.length_drop]
    omega

/-- Witness for the pagination partition theorem: three records at
per_page 2. -/
theorem pagination_partitions_witness :
    ((List.range (pages_count [Json.null, Json.null, Json.null] 2)).map
      (fun i => page_slice [Json.null, Json.null, Json.null] 2 (i + 1))).flatten =
      [Json.null, Json.null, Json.null] :=
  (pagination_partitions [Json.null, Json.null, Json.null] 2 (by decide)).1

/-- dict_insert with a fresh key appends the binding at the end. -/
theorem dict_insert_fresh (d : List (String × α)) (k : String) (v : α)
    (h : k ∉ d.map Prod.fst) : dict_insert d k v = d ++ [(k, v)] := by
  induction d with
  | nil => rfl
  | cons p rest ih =>
      obtain ⟨k0, v0⟩ := p
      simp only [List.map_cons, List.mem_cons, not_or] at h
      rw [dict_insert, if_neg (fun hc => h.1 hc.symm), ih h.2]
      rfl

/-- Folding dict assignments with pairwise distinct keys, all fresh for
the accumulator, builds the association list in order. -/
theorem foldl_dict_insert (ps : List (String × α)) :
    ∀ acc : List (String × α),
      (ps.map Prod.fst).Nodup →
      (∀ kk, kk ∈ ps.map Prod.fst → kk ∉ acc.map Prod.fst) →
      ps.foldl (fun d p => dict_insert d p.1 p.2) acc = acc ++ ps := by
  induction ps with
  | nil => intro acc _ _; simp
  | cons p rest ih =>
      intro acc hnd hfresh
      obtain ⟨k, v⟩ := p
      simp only [List.map_cons, List.nodup_cons] at hnd
      have hfreshk : k ∉ acc.map Prod.fst := hfresh k (by simp)
      have hfresh' : ∀ kk, kk ∈ rest.map Prod.fst →
          kk ∉ (acc ++ [(k, v)]).map Prod.fst := by
        intro kk hkk
        rw [List.map_append]
        intro hc
        rcases List.mem_append.mp hc with hc1 | hc2
        · exact hfresh kk (List.mem_cons_of_mem _ hkk) hc1
        · simp only [List.map_cons, List.map_nil, List.mem_singleton] at hc2
          exact hnd.1 (hc2 ▸ hkk)
      simp only [List.foldl_cons]
      rw [dict_insert_fresh acc k v hfreshk, ih (acc ++ [(k, v)]) hnd.2 hfresh']
      simp

/-- Mapping positions through getD enumerates a prefix of the list. -/
theorem range_map_getD (l : List String) :
    ∀ n, n ≤ l.length →
      (List.range n).map (fun i => l.getD i "") = l.take n := by
  intro n
  induction n with
  | zero => intro _; simp
  | succ m ih =>
      intro h
      have hm : m < l.length := by omega
      rw [List.range_succ, List.map_append, ih (by omega), List.take_succ]
      simp [List.getD_eq_getElem?_getD, List.getElem?_eq_getElem hm]

/-- Row structuring when the row covers every header, for pairwise
distinct header names: the record pairs the i-th header with the i-th
cell, one entry per header. -/
theorem structure_row_full (filler : α) (headers : List String)
    (row : List α) (hnd : headers.Nodup)
    (hlen : headers.length ≤ row.length) :
    structure_row filler headers row =
      headers.enum.map (fun p => (p.2, row.getD p.1 filler)) := by
  rw [structure_row, if_pos hlen]
  have hfold : headers.enum.foldl
      (fun d p => dict_insert d p.2 (row.getD p.1 filler)) [] =
      (headers.enum.map (fun p => (p.2, row.getD p.1 filler))).foldl
        (fun d q => dict_insert d q.1 q.2) [] := by
    rw [List.foldl_map]
  have hkeys : (headers.enum.map
      (fun p => (p.2, row.getD p.1 filler))).map Prod.fst = headers := by
    rw [List.map_map]
    exact List.enum_map_snd headers
  rw [hfold, foldl_dict_insert _ [] (by rw [hkeys]; exact hnd) (by simp)]
  simp

/-- Row structuring when the row is shorter than the headers, for pairwise
distinct header names: one entry per cell, under the header of the same
index. -/
theorem structure_row_short (filler : α) (headers : List String)
    (row : List α) (hnd : headers.Nodup)
    (hlen : row.length < headers.length) :
    structure_row filler headers row =
      row.enum.map (fun p => (headers.getD p.1 "", p.2)) := by
  rw [structure_row, if_neg (by omega)]
  have hmem : ∀ p : Nat × α, p ∈ row.enum → p.1 < headers.length := by
    intro p hp
    have := List.mem_map_of_mem Prod.fst hp
    rw [List.enum_map_fst] at this
    have := List.mem_range.mp this
    omega
  have hfold : row.enum.foldl
      (fun d p => dict_insert d
        (if p.1 < headers.length then headers.getD p.1 ""
         else "Column_" ++ toString (p.1 + 1)) p.2) [] =
      (row.enum.map (fun p =>
        ((if p.1 < headers.length then headers.getD p.1 ""
          else "Column_" ++ toString (p.1 + 1)), p.2))).foldl
        (fun d q => dict_insert d q.1 q.2) [] := by
    rw [List.foldl_map]
  have hmap : row.enum.map (fun p =>
      ((if p.1 < headers.length then headers.getD p.1 ""
        else "Column_" ++ toString (p.1 + 1)), p.2)) =
      row.enum.map (fun p => (headers.getD p.1 "", p.2)) := by
    apply List.map_congr_left
    intro p hp
    rw [if_pos (hmem p hp)]
  have hkeys : (row.enum.map (fun p => (headers.getD p.1 "", p.2))).map
      Prod.fst = headers.take row.length := by
    rw [List.map_map]
    have h1 : (row.enum.map (Prod.fst ∘ fun p : Nat × α =>
        (headers.getD p.1 "", p.2))) =
        row.enum.map (fun p => headers.getD p.1 "") := rfl
    have h2 : row.enum.map (fun p : Nat × α => headers.getD p.1 "") =
        (row.enum.map Prod.fst).map (fun i => headers.getD i "") := by
      rw [List.map_map]
      rfl
    rw [h1, h2, List.enum_map_fst,
      range_map_getD headers row.length (by omega)]
  rw [hfold, hmap, foldl_dict_insert _ [] ?_ (by simp)]
  · simp
  · rw [hkeys]
    exact hnd.sublist (List.take_sublist row.length headers)

/-- C7 (amended: for pairwise distinct extracted header names): row
structuring lines headers up with values.  A row with at least as many
cells as headers yields the record pairing headers[i] with cell i for
every header index i, dropping cells past the last header; a shorter row
yields exactly one entry per cell, under the header of the same index,
never padded for the missing trailing headers. -/
theorem structure_row_aligns (filler : α) (headers : List String)
    (row : List α) (hnd : headers.Nodup) :
    (headers.length ≤ row.length →
      structure_row filler headers row =
        headers.enum.map (fun p => (p.2, row.getD p.1 filler)) ∧
      (structure_row filler headers row).length = headers.length) ∧
    (row.length < headers.length →
      structure_row filler headers row =
        row.enum.map (fun p => (headers.getD p.1 "", p.2)) ∧
      (structure_row filler headers row).length = row.length) := by
  constructor
  · intro hlen
    have h := structure_row_full filler headers row hnd hlen
    refine ⟨h, ?_⟩
    rw [h, List.length_map, List.enum_length]
  · intro hlen
    have h := structure_row_short filler headers row hnd hlen
    refine ⟨h, ?_⟩
    rw [h, List.length_map, List.enum_length]

/-- Witness for the row-structuring theorem: two distinct headers, a row
of three cells (both branches reachable; the long-row branch shown). -/
theorem structure_row_aligns_witness :
    structure_row (Cell.plain "") ["A", "B"]
      [Cell.plain "x", Cell.plain "y", Cell.plain "z"] =
      [("A", Cell.plain "x"), ("B", Cell.plain "y")] := by
  have h := ((structure_row_aligns (Cell.plain "") ["A", "B"]
    [Cell.plain "x", Cell.plain "y", Cell.plain "z"] (by decide)).1
    (by decide)).1
  rw [h]
  decide

/-- Counterexample to C7 as stated: with the duplicated header list
["A", "A"] and the row [x, y], the structured record is the single-entry
dict mapping "A" to y (the second dict assignment overwrote the first), so
it does not map headers[0] = "A" to cell 0 = x. -/
theorem structure_row_dup_header_counterexample :
    structure_row (Cell.plain "") ["A", "A"]
      [Cell.plain "x", Cell.plain "y"] = [("A", Cell.plain "y")] ∧
    (structure_row (Cell.plain "") ["A", "A"]
      [Cell.plain "x", Cell.plain "y"]).lookup "A" ≠
      some (Cell.plain "x") := by
  constructor
  · decide
  · decide

/-- The seen-set loop agrees with the first-occurrence rule whenever the
seen set and the accumulated earlier keys have the same members. -/
theorem dedup_seen_eq_keep (key : α → String) :
    ∀ (xs : List α) (seen earlier : List String),
      (∀ s, s ∈ seen ↔ s ∈ earlier) →
      dedup_seen key seen xs = first_occurrence_keep key earlier xs := by
  intro xs
  induction xs with
  | nil => intro seen earlier _; rfl
  | cons x rest ih =>
      intro seen earlier h
      by_cases hx : key x ∈ seen
      · have hx' : key x ∈ earlier := (h (key x)).mp hx
        rw [dedup_seen, first_occurrence_keep, if_pos hx, if_pos hx']
        refine ih seen (key x :: earlier) (fun s => ?_)
        constructor
        · intro hs
          exact List.mem_cons_of_mem _ ((h s).mp hs)
        · intro hs
          rcases List.mem_cons.mp hs with rfl | hs'
          · exact hx
          · exact (h s).mpr hs'
      · have hx' : key x ∉ earlier := fun hc => hx ((h (key x)).mpr hc)
        rw [dedup_seen, first_occurrence_keep, if_neg hx, if_neg hx']
        exact congrArg (x :: ·)
          (ih (key x :: seen) (key x :: earlier)
            (fun s => by simp [List.mem_cons, h s]))

/-- The seen-set loop yields a sublist of its input (relative order is
preserved). -/
theorem dedup_seen_sublist (key : α → String) :
    ∀ (xs : List α) (seen : List String),
      List.Sublist (dedup_seen key seen xs) xs := by
  intro xs
  induction xs with
  | nil => intro seen; exact List.Sublist.refl _
  | cons x rest ih =>
      intro seen
      by_cases hx : key x ∈ seen
      · rw [dedup_seen, if_pos hx]
        exact (ih seen).cons x
      · rw [dedup_seen, if_neg hx]
        exact (ih (key x :: seen)).cons₂ x

/-- The keys of the seen-set loop's output are pairwise distinct and
disjoint from the initial seen set. -/
theorem dedup_seen_nodup (key : α → String) :
    ∀ (xs : List α) (seen : List String),
      ((dedup_seen key seen xs).map key).Nodup ∧
      ∀ s ∈ (dedup_seen key seen xs).map key, s ∉ seen := by
  intro xs
  induction xs with
  | nil => intro seen; simp [dedup_seen]
  | cons x rest ih =>
      intro seen
      by_cases hx : key x ∈ seen
      · rw [dedup_seen, if_pos hx]
        exact ih seen
      · rw [dedup_seen, if_neg hx]
        obtain ⟨hnd, hnotin⟩ := ih (key x :: seen)
        rw [List.map_cons]
        refine ⟨List.nodup_cons.mpr ⟨?_, hnd⟩, ?_⟩
        · intro hc
          exact hnotin _ hc (List.mem_cons_self _ _)
        · intro s hs
          rcases List.mem_cons.mp hs with rfl | hs'
          · exact hx
          · intro hc
            exact hnotin s hs' (List.mem_cons_of_mem _ hc)

/-- C8: deduplication keeps the first occurrence.  The heatmap result's
stocks list is the subsequence keeping exactly the entries whose symbol
has not appeared earlier, so its symbols are pairwise distinct, its
relative order matches the input and total_stocks is its length; the
scraper-side dedup and the index-card dedup by name follow the same
first-occurrence rule. -/
theorem dedup_keeps_first_occurrence (index_name category ts : String)
    (collected : List Stock) (cards : List IndexCard) :
    ((get_heatmap_result index_name category ts collected).stocks =
      first_occurrence_keep (fun s => s.symbol) [] collected) ∧
    ((get_heatmap_result index_name category ts collected).total_stocks =
      (get_heatmap_result index_name category ts collected).stocks.length) ∧
    (((get_heatmap_result index_name category ts collected).stocks.map
        (fun s => s.symbol)).Nodup) ∧
    (List.Sublist (get_heatmap_result index_name category ts collected).stocks
      collected) ∧
    (scrape_heatmap_dedup collected =
      first_occurrence_keep (fun s => s.symbol) [] collected) ∧
    (get_indices_result cards =
      first_occurrence_keep (fun card => card.name) [] cards) := by
  have heq := dedup_seen_eq_keep (fun s : Stock => s.symbol) collected [] []
    (fun s => Iff.rfl)
  exact ⟨heq, rfl, (dedup_seen_nodup _ collected []).1,
    dedup_seen_sublist _ collected [], heq,
    dedup_seen_eq_keep _ cards [] [] (fun s => Iff.rfl)⟩

end NSEBoard
